import Mathlib

/-!
Shallow embedding of the Epic Events CRM core (src/src/services, src/src/controllers,
src/src/models, src/src/core/auth.py) used to settle the specification claims.

Modelling conventions:
* SQLAlchemy rows become Lean structures; the database session becomes an explicit
  `DB` state holding one list per table plus autoincrement counters.
* Python ints and floats that carry ids, amounts, attendee counts or datetimes are
  modelled as `Int` (datetimes are arbitrary instants on an integer time line; only
  their ordering is ever used by the source).  `DateTime` columns that are set by a
  column default and never read by any service (`Contract.creation_date`,
  `Client.created_date`, `Client.last_contact_date`, `User.created_at`) are omitted.
* Every service method that commits or raises is modelled as a function
  `DB → Except String α × DB`.  A `raise` path in the source first executes
  `self.db.rollback()`, so an `.error` outcome is always paired with the unchanged
  input state; a successful commit is paired with the updated state.
* Python `**kwargs` dictionaries become association lists `List (String × PyValue)`;
  `hasattr`/`setattr` over the mapped columns becomes a per-entity `setattr` function
  that matches the attribute name and value shape and leaves the row unchanged on an
  unknown attribute, exactly as `hasattr` guards do in the source.
* Error message strings are kept close to the French originals but abridged
  (no interpolation of ids, no apostrophes); only their presence and the
  branch structure matter for the claims.
-/

inductive DepartmentType where
  | COMMERCIAL
  | SUPPORT
  | GESTION
deriving DecidableEq

/-- Row of the `users` table (src/src/models/user.py). -/
structure User where
  id : Int
  employee_number : String
  name : String
  email : String
  password : String
  department : DepartmentType
deriving DecidableEq

/-- Row of the `clients` table (src/src/models/client.py). -/
structure Client where
  id : Int
  full_name : String
  email : String
  phone : String
  company_name : String
  sales_contact_id : Int
deriving DecidableEq

/-- Row of the `contracts` table (src/src/models/contract.py). -/
structure Contract where
  id : Int
  client_id : Int
  sales_contact_id : Int
  total_amount : Int
  remaining_amount : Int
  is_signed : Bool
deriving DecidableEq

/-- Row of the `events` table (src/src/models/event.py). -/
structure Event where
  id : Int
  contract_id : Int
  support_contact_id : Option Int
  event_start_date : Int
  event_end_date : Int
  location : String
  attendees : Int
  notes : Option String
deriving DecidableEq

/-- The database state seen by the services: one list per table plus the
autoincrement counters used when a row is inserted. -/
structure DB where
  users : List User
  clients : List Client
  contracts : List Contract
  events : List Event
  next_contract_id : Int
  next_event_id : Int
deriving DecidableEq

/-- A Python value passed in a `**kwargs` dictionary. -/
inductive PyValue where
  | int (n : Int)
  | str (s : String)
  | bool (b : Bool)
  | pynone
deriving DecidableEq

/-- `self.db.get(User, uid)`: primary-key lookup. -/
def findUser (db : DB) (uid : Int) : Option User :=
  db.users.find? (fun u => u.id == uid)

/-- `self.db.get(Client, cid)`: primary-key lookup. -/
def findClient (db : DB) (cid : Int) : Option Client :=
  db.clients.find? (fun c => c.id == cid)

/-- `self.db.get(Contract, cid)`: primary-key lookup. -/
def findContract (db : DB) (cid : Int) : Option Contract :=
  db.contracts.find? (fun c => c.id == cid)

/-- `self.db.get(Event, eid)`: primary-key lookup. -/
def findEvent (db : DB) (eid : Int) : Option Event :=
  db.events.find? (fun e => e.id == eid)

/-- `db.query(User).filter(User.department == DepartmentType.GESTION).count()`
used by `UserService.delete_user`. -/
def gestionCount (db : DB) : Nat :=
  db.users.countP (fun u => decide (u.department = DepartmentType.GESTION))

/-- Check whether an `Except` outcome is a success. -/
def exceptIsOk {α : Type} : Except String α → Bool
  | .ok _ => true
  | .error _ => false

/-- `UserService.delete_user` (src/src/services/user_service.py, lines 269-352):
existence check, last-GESTION-user check, dependent-client check, dependent-event
check, then deletion of the row. -/
def deleteUser (db : DB) (user_id : Int) : Except String Bool × DB :=
  match findUser db user_id with
  | none => (.error "Utilisateur avec ID non trouve.", db)
  | some user =>
    if user.department = DepartmentType.GESTION ∧ gestionCount db ≤ 1 then
      (.error "Impossible de supprimer le dernier utilisateur de gestion.", db)
    else if db.clients.any (fun c => c.sales_contact_id == user_id) then
      (.error "Impossible de supprimer cet utilisateur car il est associe a un ou plusieurs clients.", db)
    else if db.events.any (fun e => e.support_contact_id == some user_id) then
      (.error "Impossible de supprimer cet utilisateur car il est associe a un ou plusieurs evenements.", db)
    else
      (.ok true, { db with users := db.users.filter (fun v => v.id != user_id) })

/-- `ContractService.create_contract` (src/src/services/contract_service.py,
lines 157-230): checks that the client exists, snapshots the client's
`sales_contact_id`, then persists the new row.  No check relates
`remaining_amount` to `total_amount`. -/
def createContract (db : DB) (client_id : Int) (total_amount remaining_amount : Int)
    (is_signed : Bool) : Except String Contract × DB :=
  match findClient db client_id with
  | none => (.error "Client avec ID non trouve", db)
  | some client =>
    let contract : Contract :=
      { id := db.next_contract_id
        client_id := client_id
        sales_contact_id := client.sales_contact_id
        total_amount := total_amount
        remaining_amount := remaining_amount
        is_signed := is_signed }
    (.ok contract,
      { db with contracts := db.contracts ++ [contract]
                next_contract_id := db.next_contract_id + 1 })

/-- `setattr(contract, key, value)` on a `Contract` row for a key that passed
`hasattr`; an unknown attribute name (or a value whose shape does not fit the
column) leaves the row unchanged, as the `hasattr` guard does in the source. -/
def contractSetattr (c : Contract) (key : String) (v : PyValue) : Contract :=
  if key == "id" then (match v with | .int n => { c with id := n } | _ => c)
  else if key == "client_id" then (match v with | .int n => { c with client_id := n } | _ => c)
  else if key == "sales_contact_id" then (match v with | .int n => { c with sales_contact_id := n } | _ => c)
  else if key == "total_amount" then (match v with | .int n => { c with total_amount := n } | _ => c)
  else if key == "remaining_amount" then (match v with | .int n => { c with remaining_amount := n } | _ => c)
  else if key == "is_signed" then (match v with | .bool b => { c with is_signed := b } | _ => c)
  else c

/-- `ContractService.update_contract` (src/src/services/contract_service.py,
lines 232-302): fetches the contract, applies every kwarg whose key is an
existing attribute, commits.  No validation of the resulting amounts. -/
def updateContract (db : DB) (contract_id : Int) (kwargs : List (String × PyValue)) :
    Except String Contract × DB :=
  match findContract db contract_id with
  | none => (.error "Contrat avec ID non trouve", db)
  | some contract =>
    let updated := kwargs.foldl (fun c kv => contractSetattr c kv.1 kv.2) contract
    (.ok updated,
      { db with contracts := db.contracts.map (fun c => if c.id == contract_id then updated else c) })

/-- `ContractService.delete_contract` (src/src/services/contract_service.py,
lines 304-365): existence check, dependent-event check, then deletion. -/
def deleteContract (db : DB) (contract_id : Int) : Except String Bool × DB :=
  match findContract db contract_id with
  | none => (.error "Contrat avec ID non trouve", db)
  | some _ =>
    if db.events.any (fun e => e.contract_id == contract_id) then
      (.error "Impossible de supprimer ce contrat car il est associe a des evenements", db)
    else
      (.ok true, { db with contracts := db.contracts.filter (fun c => c.id != contract_id) })

/-- `EventService.create_event` (src/src/services/event_service.py, lines 150-242):
checks that the contract exists, that the end date is strictly after the start
date, and that `attendees ≥ 1`; then persists the event with
`support_contact_id = NULL`.  The contract's `is_signed` flag is never read. -/
def createEvent (db : DB) (contract_id : Int) (event_start_date event_end_date : Int)
    (location : String) (attendees : Int) (notes : Option String) :
    Except String Event × DB :=
  match findContract db contract_id with
  | none => (.error "Contrat avec ID non trouve.", db)
  | some _ =>
    if event_end_date ≤ event_start_date then
      (.error "La date de fin doit etre apres la date de debut.", db)
    else if attendees < 1 then
      (.error "Le nombre de participants doit etre au moins de 1.", db)
    else
      let ev : Event :=
        { id := db.next_event_id
          contract_id := contract_id
          support_contact_id := none
          event_start_date := event_start_date
          event_end_date := event_end_date
          location := location
          attendees := attendees
          notes := notes }
      (.ok ev, { db with events := db.events ++ [ev], next_event_id := db.next_event_id + 1 })

/-- `EventService.assign_event` (src/src/services/event_service.py, lines 409-464):
checks that the event exists, that the target user exists and belongs to the
SUPPORT department, then overwrites `support_contact_id` unconditionally
(whether or not the event already had a support contact). -/
def assignEvent (db : DB) (event_id support_id : Int) : Except String Event × DB :=
  match findEvent db event_id with
  | none => (.error "Evenement avec ID non trouve.", db)
  | some event =>
    match findUser db support_id with
    | none => (.error "Utilisateur avec ID non trouve.", db)
    | some support =>
      if support.department = DepartmentType.SUPPORT then
        let updated := { event with support_contact_id := some support_id }
        (.ok updated,
          { db with events := db.events.map (fun e => if e.id == event_id then updated else e) })
      else
        (.error "Utilisateur pas membre de equipe support.", db)

/-- `setattr(client, attr, value)` on a `Client` row for an attr that passed
`hasattr`; unknown attribute names leave the row unchanged. -/
def clientSetattr (c : Client) (key : String) (v : PyValue) : Client :=
  if key == "id" then (match v with | .int n => { c with id := n } | _ => c)
  else if key == "full_name" then (match v with | .str s => { c with full_name := s } | _ => c)
  else if key == "email" then (match v with | .str s => { c with email := s } | _ => c)
  else if key == "phone" then (match v with | .str s => { c with phone := s } | _ => c)
  else if key == "company_name" then (match v with | .str s => { c with company_name := s } | _ => c)
  else if key == "sales_contact_id" then (match v with | .int n => { c with sales_contact_id := n } | _ => c)
  else c

/-- `ClientService.update_client` (src/src/services/client_service.py, lines
141-205): fetches the client, then for every kwarg applies
`if hasattr(client, attr) and value is not None: setattr(client, attr, value)`
and commits.  There is no ownership, department or permission check. -/
def updateClient (db : DB) (client_id : Int) (kwargs : List (String × PyValue)) :
    Except String Client × DB :=
  match findClient db client_id with
  | none => (.error "Client avec ID non trouve", db)
  | some client =>
    let updated := kwargs.foldl
      (fun c kv => if kv.2 == PyValue.pynone then c else clientSetattr c kv.1 kv.2) client
    (.ok updated,
      { db with clients := db.clients.map (fun c => if c.id == client_id then updated else c) })

/-- `ClientService.reassign_client` (src/src/services/client_service.py, lines
207-283): checks client and new commercial exist and that the new commercial is
in the COMMERCIAL department, then updates only `client.sales_contact_id`. -/
def reassignClient (db : DB) (client_id new_commercial_id : Int) :
    Except String Client × DB :=
  match findClient db client_id with
  | none => (.error "Client avec ID non trouve", db)
  | some client =>
    match findUser db new_commercial_id with
    | none => (.error "Commercial avec ID non trouve", db)
    | some commercial =>
      if commercial.department = DepartmentType.COMMERCIAL then
        let updated := { client with sales_contact_id := new_commercial_id }
        (.ok updated,
          { db with clients := db.clients.map (fun c => if c.id == client_id then updated else c) })
      else
        (.error "Utilisateur pas un commercial", db)

/-- `ContractService.get_contracts_by_commercial` (src/src/services/contract_service.py). -/
def getContractsByCommercial (db : DB) (commercial_id : Int) : List Contract :=
  db.contracts.filter (fun c => c.sales_contact_id == commercial_id)

/-- The list of contracts `EventController.create_event`
(src/src/controllers/event_controller.py, lines 78-94) offers for selection:
for GESTION all signed contracts, for a COMMERCIAL their own signed contracts;
a SUPPORT user is rejected before this point, so no contract is offered. -/
def eventControllerSelectableContracts (db : DB) (current_user : User) : List Contract :=
  match current_user.department with
  | DepartmentType.GESTION => db.contracts.filter (fun c => c.is_signed)
  | DepartmentType.COMMERCIAL =>
      (getContractsByCommercial db current_user.id).filter (fun c => c.is_signed)
  | DepartmentType.SUPPORT => []

/-- The permission gate of `ClientController.update_client`
(src/src/controllers/client_controller.py, lines 107-149): only a COMMERCIAL
actor may proceed, and only on a client whose `sales_contact_id` is the actor's
own id; otherwise the controller aborts before calling the service. -/
def clientControllerUpdateClient (db : DB) (current_user : User) (client_id : Int)
    (kwargs : List (String × PyValue)) : Except String Client × DB :=
  if current_user.department = DepartmentType.COMMERCIAL then
    match findClient db client_id with
    | none => (.error "Client avec ID non trouve", db)
    | some client =>
      if client.sales_contact_id == current_user.id then
        updateClient db client_id kwargs
      else
        (.error "Vous ne pouvez pas modifier ce client.", db)
  else
    (.error "Seuls les commerciaux peuvent modifier des clients.", db)

/-- `AuthManager.logout` (src/src/core/auth.py, lines 82-85): the session store
is the optional content of the token file; logout deletes the file when it
exists and does nothing otherwise (no error in either case). -/
def logout (token_file : Option String) : Option String :=
  if token_file.isSome then none else token_file

/-! Concrete sample state used by counterexamples and witnesses: two COMMERCIAL
users, one GESTION user, one SUPPORT user, one client owned by user 1, one
unsigned and one signed contract for that client, and one event on the signed
contract. -/

/-- Sample COMMERCIAL user, owner of the sample client. -/
def alice : User :=
  { id := 1, employee_number := "100001", name := "Alice", email := "alice@epic.com"
    password := "h1", department := DepartmentType.COMMERCIAL }

/-- Sample GESTION user (the only one in the sample state). -/
def gwen : User :=
  { id := 2, employee_number := "100002", name := "Gwen", email := "gwen@epic.com"
    password := "h2", department := DepartmentType.GESTION }

/-- Sample SUPPORT user. -/
def sam : User :=
  { id := 3, employee_number := "100003", name := "Sam", email := "sam@epic.com"
    password := "h3", department := DepartmentType.SUPPORT }

/-- Second sample COMMERCIAL user, owning no client. -/
def dave : User :=
  { id := 4, employee_number := "100004", name := "Dave", email := "dave@epic.com"
    password := "h4", department := DepartmentType.COMMERCIAL }

/-- Sample client, owned by `alice`. -/
def acmeClient : Client :=
  { id := 1, full_name := "Bob Durand", email := "bob@acme.com", phone := "0102030405"
    company_name := "ACME", sales_contact_id := 1 }

/-- Sample contract that has not been signed. -/
def unsignedContract : Contract :=
  { id := 1, client_id := 1, sales_contact_id := 1, total_amount := 1000
    remaining_amount := 1000, is_signed := false }

/-- Sample signed contract. -/
def signedContract : Contract :=
  { id := 2, client_id := 1, sales_contact_id := 1, total_amount := 2000
    remaining_amount := 500, is_signed := true }

/-- Sample event on the signed contract, not yet assigned to a support user. -/
def sampleEvent : Event :=
  { id := 1, contract_id := 2, support_contact_id := none, event_start_date := 10
    event_end_date := 20, location := "Paris", attendees := 5, notes := none }

/-- The sample database state. -/
def sampleDb : DB :=
  { users := [alice, gwen, sam, dave], clients := [acmeClient]
    contracts := [unsignedContract, signedContract], events := [sampleEvent]
    next_contract_id := 3, next_event_id := 2 }

/-- Helper: a successful run of `createEvent` fully described, for a state in
which the contract exists and the date and attendee checks pass. -/
theorem createEvent_run (db : DB) (cid : Int) (c : Contract)
    (hc : findContract db cid = some c) (s e : Int) (loc : String) (att : Int)
    (nts : Option String) (hse : s < e) (hatt : 1 ≤ att) :
    createEvent db cid s e loc att nts =
      (.ok { id := db.next_event_id, contract_id := cid, support_contact_id := none
             event_start_date := s, event_end_date := e, location := loc
             attendees := att, notes := nts },
       { db with
           events := db.events ++
             [{ id := db.next_event_id, contract_id := cid, support_contact_id := none
                event_start_date := s, event_end_date := e, location := loc
                attendees := att, notes := nts }]
           next_event_id := db.next_event_id + 1 }) := by
  have h1 : ¬ (e ≤ s) := not_le.mpr hse
  have h2 : ¬ (att < 1) := by omega
  simp [createEvent, hc, h1, h2]

/-- C1 counterexample: in the sample state, contract 1 exists and is unsigned,
yet `EventService.create_event` succeeds on it and persists an event for that
contract, instead of failing with an error. -/
theorem createEvent_unsigned_contract_persists :
    unsignedContract.is_signed = false ∧
    findContract sampleDb 1 = some unsignedContract ∧
    exceptIsOk (createEvent sampleDb 1 10 20 "Paris" 5 Option.none).1 = true ∧
    (createEvent sampleDb 1 10 20 "Paris" 5 Option.none).2.events.any
      (fun e => e.contract_id == 1) = true := by
  refine ⟨rfl, rfl, rfl, rfl⟩

/-- C1 (amended): `EventService.create_event` checks only contract existence,
date order and attendee count — never `is_signed` — so with valid dates and
attendees it succeeds and persists an event even for an unsigned contract; the
signed-contract prerequisite is enforced only upstream, by
`EventController.create_event`, whose contract-selection list contains signed
contracts only. -/
theorem createEvent_signed_check_only_in_controller
    (db : DB) (cid : Int) (c : Contract)
    (hc : findContract db cid = some c) (hns : c.is_signed = false)
    (s e : Int) (loc : String) (att : Int) (nts : Option String)
    (hse : s < e) (hatt : 1 ≤ att) :
    (∃ ev db2, createEvent db cid s e loc att nts = (.ok ev, db2) ∧
        ev.contract_id = cid ∧ ev ∈ db2.events) ∧
    (∀ u : User, ∀ k ∈ eventControllerSelectableContracts db u, k.is_signed = true) := by
  constructor
  · exact ⟨_, _, createEvent_run db cid c hc s e loc att nts hse hatt, rfl, by simp⟩
  · intro u k hk
    unfold eventControllerSelectableContracts at hk
    cases hdep : u.department <;> rw [hdep] at hk <;>
      simp_all [getContractsByCommercial, List.mem_filter]

/-- C1 amended-claim witness at the concrete sample state. -/
theorem createEvent_signed_check_only_in_controller_witness :
    (∃ ev db2, createEvent sampleDb 1 10 20 "Paris" 5 Option.none = (.ok ev, db2) ∧
        ev.contract_id = 1 ∧ ev ∈ db2.events) ∧
    (∀ u : User, ∀ k ∈ eventControllerSelectableContracts sampleDb u, k.is_signed = true) :=
  createEvent_signed_check_only_in_controller sampleDb 1 unsignedContract rfl rfl
    10 20 "Paris" 5 Option.none (by decide) (by decide)

/-- C2: `ContractService.create_contract` called with `total_amount = 1000` and
`remaining_amount = 1500` succeeds and persists the row, although the spec
requires a validation error and no persisted row; the service performs no
amount-bound check at all (its own docstring promises a `ValueError` for
invalid amounts). -/
theorem createContract_persists_remaining_exceeding_total :
    ∃ c db2, createContract sampleDb 1 1000 1500 false = (.ok c, db2) ∧
      c.total_amount = 1000 ∧ c.remaining_amount = 1500 ∧
      ¬ (c.remaining_amount ≤ c.total_amount) ∧ c ∈ db2.contracts := by
  refine ⟨_, _, rfl, rfl, rfl, by decide, by simp [createContract, findClient]⟩

/-- C8 counterexample: `EventService.create_event` accepts an event whose start
date (instant 0) lies before the creation instant: the service takes no clock
input at all, so the same successful call is accepted at every creation instant,
including any instant later than 0.  Here contract 2 is signed and the date and
attendee checks pass, so only the absent future-start check is exercised. -/
theorem createEvent_accepts_past_start :
    exceptIsOk (createEvent sampleDb 2 0 1 "Lyon" 3 Option.none).1 = true ∧
    (createEvent sampleDb 2 0 1 "Lyon" 3 Option.none).2.events.any
      (fun e => e.contract_id == 2 && e.event_start_date == 0) = true := by
  refine ⟨rfl, rfl⟩

/-- C8 (amended): every event returned by a successful
`EventService.create_event` call satisfies `event_end_date > event_start_date`,
and a call with `end ≤ start` is rejected with an error and persists nothing;
the future-start requirement is not checked by the service (it is applied only
by the interactive view through `FutureDateValidator` when input is typed). -/
theorem createEvent_end_after_start
    (db : DB) (cid : Int) (s e : Int) (loc : String) (att : Int) (nts : Option String) :
    (∀ ev db2, createEvent db cid s e loc att nts = (.ok ev, db2) →
      ev.event_start_date = s ∧ ev.event_end_date = e ∧ s < e) ∧
    (e ≤ s → ∃ msg, createEvent db cid s e loc att nts = (.error msg, db)) := by
  constructor
  · intro ev db2 h
    unfold createEvent at h
    cases hfc : findContract db cid with
    | none => rw [hfc] at h; simp at h
    | some c =>
      rw [hfc] at h
      by_cases h1 : e ≤ s
      · rw [if_pos h1] at h; simp at h
      · rw [if_neg h1] at h
        by_cases h2 : att < 1
        · rw [if_pos h2] at h; simp at h
        · rw [if_neg h2] at h
          rw [Prod.mk.injEq] at h
          obtain ⟨hok, -⟩ := h
          rw [Except.ok.injEq] at hok
          subst hok
          exact ⟨rfl, rfl, not_le.mp h1⟩
  · intro h1
    unfold createEvent
    cases hfc : findContract db cid with
    | none => exact ⟨_, rfl⟩
    | some c =>
      rw [if_pos h1]
      exact ⟨_, rfl⟩

/-- C8 amended-claim witness: a call with `end = start` on the signed sample
contract is rejected and the state is unchanged. -/
theorem createEvent_end_after_start_witness :
    ∃ msg, createEvent sampleDb 2 5 5 "Lyon" 3 Option.none = (.error msg, sampleDb) :=
  (createEvent_end_after_start sampleDb 2 5 5 "Lyon" 3 Option.none).2 (by decide)

/-- C9: `AuthManager.logout` is idempotent on the session store, and calling it
with no token present is a no-op (it is a total function: no error outcome
exists). -/
theorem logout_idempotent_noop :
    (∀ t : Option String, logout (logout t) = logout t) ∧
    logout Option.none = Option.none := by
  exact ⟨fun t => by cases t <;> rfl, rfl⟩


/-- Helper: after filtering out every element whose integer key equals `uid`,
a lookup of `uid` by that key finds nothing. -/
theorem find?_id_filter_ne {α : Type} (l : List α) (f : α → Int) (uid : Int) :
    (l.filter (fun v => f v != uid)).find? (fun v => f v == uid) = none := by
  apply List.find?_eq_none.mpr
  intro x hx
  have hne := (List.mem_filter.mp hx).2
  simp only [bne_iff_ne, ne_eq] at hne
  simp [hne]

/-- C4: deleting a contract that some event references fails with a named error
and leaves the state (contract and events included) unchanged; deleting a
contract no event references returns `True` and removes the contract. -/
theorem deleteContract_dependent_events
    (db : DB) (cid : Int) (c : Contract) (hc : findContract db cid = some c) :
    ((∃ e ∈ db.events, e.contract_id = cid) →
      ∃ msg, deleteContract db cid = (.error msg, db)) ∧
    ((∀ e ∈ db.events, e.contract_id ≠ cid) →
      deleteContract db cid =
        (.ok true, { db with contracts := db.contracts.filter (fun k => k.id != cid) }) ∧
      findContract (deleteContract db cid).2 cid = none) := by
  constructor
  · intro ⟨e, he, hecid⟩
    unfold deleteContract
    rw [hc]
    have hany : db.events.any (fun k => k.contract_id == cid) = true :=
      List.any_eq_true.mpr ⟨e, he, by simp [hecid]⟩
    rw [if_pos hany]
    exact ⟨_, rfl⟩
  · intro hnone
    have hany : ¬ (db.events.any (fun k => k.contract_id == cid) = true) := by
      rw [List.any_eq_true]
      rintro ⟨e, he, hbeq⟩
      exact hnone e he (by simpa using hbeq)
    have hrun : deleteContract db cid =
        (.ok true, { db with contracts := db.contracts.filter (fun k => k.id != cid) }) := by
      unfold deleteContract
      rw [hc, if_neg hany]
    refine ⟨hrun, ?_⟩
    rw [hrun]
    exact find?_id_filter_ne db.contracts (fun k => k.id) cid

/-- C4 witness: in the sample state, contract 2 has the sample event attached,
so deleting it fails and the state is unchanged. -/
theorem deleteContract_dependent_events_witness :
    ∃ msg, deleteContract sampleDb 2 = (.error msg, sampleDb) :=
  (deleteContract_dependent_events sampleDb 2 signedContract rfl).1
    ⟨sampleEvent, by decide, rfl⟩

/-- Helper: replacing, in place, the first element found under an id predicate
makes the lookup return the replacement, provided the replacement keeps the id. -/
theorem findEvent_map_update (l : List Event) (eid : Int) (ev ev2 : Event)
    (h : l.find? (fun e => e.id == eid) = some ev) (hid : ev2.id = ev.id) :
    (l.map (fun e => if e.id == eid then ev2 else e)).find? (fun e => e.id == eid) =
      some ev2 := by
  induction l with
  | nil => simp at h
  | cons a t ih =>
    by_cases ha : ((a.id == eid) = true)
    · rw [List.find?_cons_of_pos t ha] at h
      rw [Option.some.injEq] at h
      subst h
      have hb : (ev2.id == eid) = true := by rw [hid]; exact ha
      simp only [List.map_cons, if_pos ha]
      exact List.find?_cons_of_pos _ hb
    · rw [List.find?_cons_of_neg t ha] at h
      simp only [List.map_cons, if_neg ha]
      exact (List.find?_cons_of_neg (p := fun e => e.id == eid)
        (List.map (fun e => if e.id == eid then ev2 else e) t) ha).trans (ih h)

/-- Shorthand for the state produced by a successful `assign_event`: the stored
event row is overwritten with the given support contact. -/
def assignEventState (db : DB) (eid uid : Int) (ev : Event) : DB :=
  { db with events := db.events.map (fun e => if e.id == eid then { ev with support_contact_id := some uid } else e) }

/-- C5: for an existing event, `EventService.assign_event` fails with an error
and leaves the state unchanged when the target user does not exist or is not in
the SUPPORT department; when the target is a SUPPORT user it succeeds and sets
`support_contact_id` to that user's id — with no hypothesis on the event's
previous `support_contact_id`, so an already-assigned event is reassigned with
the same success, not an error. -/
theorem assignEvent_support_only_and_reassign
    (db : DB) (eid uid : Int) (ev : Event) (he : findEvent db eid = some ev) :
    (∀ u, findUser db uid = some u → u.department = DepartmentType.SUPPORT →
      assignEvent db eid uid =
        (.ok { ev with support_contact_id := some uid }, assignEventState db eid uid ev) ∧
      findEvent (assignEvent db eid uid).2 eid =
        some { ev with support_contact_id := some uid }) ∧
    (findUser db uid = none → ∃ msg, assignEvent db eid uid = (.error msg, db)) ∧
    (∀ u, findUser db uid = some u → u.department ≠ DepartmentType.SUPPORT →
      ∃ msg, assignEvent db eid uid = (.error msg, db)) := by
  refine ⟨?_, ?_, ?_⟩
  · intro u hu hdep
    have hrun : assignEvent db eid uid =
        (.ok { ev with support_contact_id := some uid }, assignEventState db eid uid ev) := by
      simp [assignEvent, assignEventState, he, hu, hdep]
    refine ⟨hrun, ?_⟩
    rw [hrun]
    exact findEvent_map_update db.events eid ev _ he rfl
  · intro hu
    unfold assignEvent
    rw [he, hu]
    exact ⟨_, rfl⟩
  · intro u hu hdep
    exact ⟨"Utilisateur pas membre de equipe support.", by simp [assignEvent, he, hu, hdep]⟩

/-- C5 witness: assigning the sample event to the SUPPORT user `sam` succeeds
and records `sam` as the support contact. -/
theorem assignEvent_support_only_and_reassign_witness :
    assignEvent sampleDb 1 3 =
      (.ok { sampleEvent with support_contact_id := some 3 }, assignEventState sampleDb 1 3 sampleEvent) ∧
    findEvent (assignEvent sampleDb 1 3).2 1 =
      some { sampleEvent with support_contact_id := some 3 } :=
  (assignEvent_support_only_and_reassign sampleDb 1 3 sampleEvent rfl).1 sam rfl rfl

/-- Helper: `ClientService.reassign_client` never changes the contracts table,
whatever its outcome. -/
theorem reassignClient_contracts (db : DB) (cid nuid : Int) :
    (reassignClient db cid nuid).2.contracts = db.contracts := by
  unfold reassignClient
  split
  · rfl
  · split
    · rfl
    · split
      · rfl
      · rfl

/-- C6: `ContractService.create_contract` snapshots the client's
`sales_contact_id` into the new contract at creation time, and
`ClientService.reassign_client` — whatever its outcome — never changes the
contracts table, so existing contracts keep their original `sales_contact_id`
after a client reassignment. -/
theorem contract_snapshot_and_reassign_frame
    (db : DB) (cid : Int) (cl : Client) (hc : findClient db cid = some cl)
    (total remaining : Int) (signed : Bool) :
    (∀ c db2, createContract db cid total remaining signed = (.ok c, db2) →
      c.sales_contact_id = cl.sales_contact_id) ∧
    (∀ cid2 nuid r db2, reassignClient db cid2 nuid = (r, db2) →
      db2.contracts = db.contracts) := by
  constructor
  · intro c db2 h
    unfold createContract at h
    rw [hc] at h
    rw [Prod.mk.injEq] at h
    obtain ⟨hok, -⟩ := h
    rw [Except.ok.injEq] at hok
    rw [← hok]
  · intro cid2 nuid r db2 h
    have h2 := reassignClient_contracts db cid2 nuid
    rw [h] at h2
    exact h2

/-- C6 witness: creating a contract for the sample client copies `alice` as the
sales contact, and reassigning the client to `dave` leaves the contracts table
of the resulting state untouched. -/
theorem contract_snapshot_and_reassign_frame_witness :
    (∀ c db2, createContract sampleDb 1 300 300 false = (.ok c, db2) →
      c.sales_contact_id = acmeClient.sales_contact_id) ∧
    (∀ cid2 nuid r db2, reassignClient sampleDb cid2 nuid = (r, db2) →
      db2.contracts = sampleDb.contracts) :=
  contract_snapshot_and_reassign_frame sampleDb 1 acmeClient rfl 300 300 false

/-- C7: through the controller gate of `ClientController.update_client`, the
owning commercial's update call reaches the service and succeeds, while the
same call by a different commercial (not the client's sales contact) is denied
with an error before any mutation, leaving the state unchanged. -/
theorem updateClient_owner_only_controller
    (db : DB) (cid : Int) (x : Client) (hx : findClient db cid = some x)
    (c d : User) (hcdep : c.department = DepartmentType.COMMERCIAL)
    (hown : x.sales_contact_id = c.id)
    (hddep : d.department = DepartmentType.COMMERCIAL)
    (hnot : d.id ≠ x.sales_contact_id)
    (kwargs : List (String × PyValue)) :
    (∃ cl2 db2, clientControllerUpdateClient db c cid kwargs = (.ok cl2, db2)) ∧
    (∃ msg, clientControllerUpdateClient db d cid kwargs = (.error msg, db)) := by
  constructor
  · have hbeq : (x.sales_contact_id == c.id) = true := beq_iff_eq.mpr hown
    simp only [clientControllerUpdateClient, hx, hcdep, hbeq, if_true, updateClient]
    exact ⟨_, _, rfl⟩
  · have hbeq : (x.sales_contact_id == d.id) = false :=
      beq_eq_false_iff_ne.mpr (fun hcontra => hnot hcontra.symm)
    simp only [clientControllerUpdateClient, hx, hddep, hbeq, Bool.false_eq_true,
      if_false, if_true]
    exact ⟨_, rfl⟩

/-- C7 witness: `alice` (owner of the sample client) updates the phone with
success; `dave` (another commercial) is denied and the state is unchanged. -/
theorem updateClient_owner_only_controller_witness :
    (∃ cl2 db2, clientControllerUpdateClient sampleDb alice 1
        [("phone", PyValue.str "0611223344")] = (.ok cl2, db2)) ∧
    (∃ msg, clientControllerUpdateClient sampleDb dave 1
        [("phone", PyValue.str "0611223344")] = (.error msg, sampleDb)) :=
  updateClient_owner_only_controller sampleDb 1 acmeClient rfl alice dave
    rfl rfl rfl (by decide) [("phone", PyValue.str "0611223344")]

/-- Helper: folding the update loop of `ClientService.update_client` over
kwargs whose values are all `None` leaves the row unchanged. -/
theorem client_fold_pynone (kwargs : List (String × PyValue)) (cl : Client)
    (h : ∀ kv ∈ kwargs, kv.2 = PyValue.pynone) :
    kwargs.foldl
      (fun c kv => if kv.2 == PyValue.pynone then c else clientSetattr c kv.1 kv.2) cl = cl := by
  induction kwargs generalizing cl with
  | nil => rfl
  | cons kv t ih =>
    have hkv : kv.2 = PyValue.pynone := h kv (List.mem_cons_self kv t)
    rw [List.foldl_cons]
    have hb : (kv.2 == PyValue.pynone) = true := by rw [hkv]; rfl
    rw [if_pos hb]
    exact ih cl (fun kv2 h2 => h kv2 (List.mem_cons_of_mem kv h2))

/-- C10 (implicit): `ClientService.update_client` applies any kwarg naming an
existing `Client` attribute with no permission check — in particular it changes
`sales_contact_id` when asked to (the function takes no actor at all) — while a
kwarg whose key names no attribute, or whose value is `None`, is silently
ignored and leaves the fields unchanged. -/
theorem updateClient_applies_any_attr_kwargs :
    (∃ db2, updateClient sampleDb 1 [("sales_contact_id", PyValue.int 4)] =
        (.ok { acmeClient with sales_contact_id := 4 }, db2) ∧
      acmeClient.sales_contact_id = 1) ∧
    (∀ (cl : Client) (key : String) (v : PyValue),
      key ∉ (["id", "full_name", "email", "phone", "company_name",
              "sales_contact_id"] : List String) →
      clientSetattr cl key v = cl) ∧
    (∀ (db : DB) (cid : Int) (cl : Client) (kwargs : List (String × PyValue)),
      findClient db cid = some cl → (∀ kv ∈ kwargs, kv.2 = PyValue.pynone) →
      (updateClient db cid kwargs).1 = .ok cl) := by
  refine ⟨⟨_, rfl, rfl⟩, ?_, ?_⟩
  · intro cl key v hmem
    simp only [List.mem_cons, List.mem_singleton, not_or] at hmem
    obtain ⟨h1, h2, h3, h4, h5, h6⟩ := hmem
    unfold clientSetattr
    rw [if_neg (by simp [h1]), if_neg (by simp [h2]), if_neg (by simp [h3]),
      if_neg (by simp [h4]), if_neg (by simp [h5]), if_neg (by simp [h6])]
  · intro db cid cl kwargs hfind hnone
    simp only [updateClient, hfind]
    rw [client_fold_pynone kwargs cl hnone]

/-- C10 witness: a `phone = None` kwarg on the sample client is ignored: the
service returns the client unchanged. -/
theorem updateClient_applies_any_attr_kwargs_witness :
    (updateClient sampleDb 1 [("phone", PyValue.pynone)]).1 = .ok acmeClient :=
  updateClient_applies_any_attr_kwargs.2.2 sampleDb 1 acmeClient
    [("phone", PyValue.pynone)] rfl (by simp)

/-- Helper: under pairwise-distinct user ids, at most one list entry carries a
given id. -/
theorem user_countP_id_le_one (l : List User) (uid : Int)
    (h : l.Pairwise (fun a b => a.id ≠ b.id)) :
    l.countP (fun v => v.id == uid) ≤ 1 := by
  induction l with
  | nil => simp
  | cons a t ih =>
    rw [List.pairwise_cons] at h
    rw [List.countP_cons]
    by_cases ha : a.id = uid
    · rw [if_pos (by simpa using ha)]
      have ht : t.countP (fun v => v.id == uid) = 0 := by
        apply List.countP_eq_zero.mpr
        intro v hv
        simp only [beq_iff_eq]
        exact fun hvu => (h.1 v hv) (ha.trans hvu.symm)
      omega
    · rw [if_neg (by simpa using ha)]
      have := ih h.2
      omega

/-- Helper: filtering out the entries with a given id removes, from any count,
at most as many entries as carry that id. -/
theorem countP_le_filter_add (l : List User) (uid : Int) (p : User → Bool) :
    l.countP p ≤ (l.filter (fun v => v.id != uid)).countP p +
      l.countP (fun v => v.id == uid) := by
  induction l with
  | nil => simp
  | cons a t ih =>
    rw [List.filter_cons]
    by_cases ha : (a.id != uid) = true
    · have hnb : ¬ ((a.id == uid) = true) := by simpa [bne_iff_ne] using ha
      rw [if_pos ha]
      rw [List.countP_cons, List.countP_cons, List.countP_cons, if_neg hnb]
      by_cases hp : p a = true
      · rw [if_pos hp]; omega
      · rw [if_neg hp]; omega
    · have hb : (a.id == uid) = true := by
        have : ¬ (a.id ≠ uid) := by simpa [bne_iff_ne] using ha
        simpa using not_not.mp this
      rw [if_neg ha]
      rw [List.countP_cons, List.countP_cons, if_pos hb]
      by_cases hp : p a = true
      · rw [if_pos hp]; omega
      · rw [if_neg hp]; omega

/-- Helper: under pairwise-distinct user ids, two members with the same id are
the same row. -/
theorem user_eq_of_mem_id (l : List User) (h : l.Pairwise (fun a b => a.id ≠ b.id))
    (u w : User) (hu : u ∈ l) (hw : w ∈ l) (hid : u.id = w.id) : u = w := by
  induction l with
  | nil => cases hu
  | cons a t ih =>
    rw [List.pairwise_cons] at h
    rcases List.mem_cons.mp hu with huh | hut
    · rcases List.mem_cons.mp hw with hwh | hwt
      · rw [huh, hwh]
      · exact absurd (huh ▸ hid) (h.1 w hwt)
    · rcases List.mem_cons.mp hw with hwh | hwt
      · exact absurd (hwh ▸ hid) (fun hcontra => (h.1 u hut) hcontra.symm)
      · exact ih h.2 hut hwt

/-- Helper: a member of the GESTION department makes the GESTION count positive. -/
theorem gestionCount_pos_of_mem (db : DB) (w : User) (hw : w ∈ db.users)
    (hd : w.department = DepartmentType.GESTION) : 1 ≤ gestionCount db := by
  have : 0 < db.users.countP (fun v => decide (v.department = DepartmentType.GESTION)) :=
    List.countP_pos_iff.mpr ⟨w, hw, by simp [hd]⟩
  simpa [gestionCount] using this

/-- Helper: every outcome of `deleteUser` either leaves the state unchanged or
removes exactly the rows carrying the target id, and the removal branch is only
reached when the found user is not a last-GESTION case. -/
theorem deleteUser_users_cases (db : DB) (uid : Int) :
    (deleteUser db uid).2 = db ∨
    ((deleteUser db uid).2 = { db with users := db.users.filter (fun v => v.id != uid) } ∧
      ∃ u, findUser db uid = some u ∧
        ¬ (u.department = DepartmentType.GESTION ∧ gestionCount db ≤ 1)) := by
  unfold deleteUser
  split
  · left; rfl
  · next user heq =>
    split
    · left; rfl
    · next h1 =>
      split
      · left; rfl
      · split
        · left; rfl
        · right; exact ⟨rfl, user, heq, h1⟩

/-- C3: for an existing user in a state with pairwise-distinct user ids,
`UserService.delete_user` fails with a named error and leaves the state
unchanged whenever the user is the only GESTION user, owns a client, or is the
support contact of an event; when none of these hold it returns `True` and
removes the user; and whatever the outcome, a state with at least one GESTION
user keeps at least one GESTION user. -/
theorem deleteUser_blocked_conditions_and_gestion_floor
    (db : DB) (uid : Int) (u : User)
    (hu : findUser db uid = some u)
    (hids : db.users.Pairwise (fun a b => a.id ≠ b.id)) :
    (((u.department = DepartmentType.GESTION ∧ gestionCount db = 1) ∨
       (∃ c ∈ db.clients, c.sales_contact_id = uid) ∨
       (∃ e ∈ db.events, e.support_contact_id = some uid)) →
      ∃ msg, deleteUser db uid = (.error msg, db)) ∧
    ((¬ (u.department = DepartmentType.GESTION ∧ gestionCount db = 1) ∧
      (∀ c ∈ db.clients, c.sales_contact_id ≠ uid) ∧
      (∀ e ∈ db.events, e.support_contact_id ≠ some uid)) →
      deleteUser db uid =
        (.ok true, { db with users := db.users.filter (fun v => v.id != uid) }) ∧
      findUser (deleteUser db uid).2 uid = none) ∧
    (1 ≤ gestionCount db →
      ∀ r db2, deleteUser db uid = (r, db2) → 1 ≤ gestionCount db2) := by
  have humem : u ∈ db.users := List.mem_of_find?_eq_some hu
  have huid : u.id = uid := by simpa using List.find?_some hu
  refine ⟨?_, ?_, ?_⟩
  · intro hbad
    by_cases h1 : u.department = DepartmentType.GESTION ∧ gestionCount db ≤ 1
    · exact ⟨"Impossible de supprimer le dernier utilisateur de gestion.",
        by simp only [deleteUser, hu]; rw [if_pos h1]⟩
    · by_cases h2 : db.clients.any (fun c => c.sales_contact_id == uid) = true
      · exact ⟨"Impossible de supprimer cet utilisateur car il est associe a un ou plusieurs clients.",
          by simp only [deleteUser, hu]; rw [if_neg h1, if_pos h2]⟩
      · by_cases h3 : db.events.any (fun e => e.support_contact_id == some uid) = true
        · exact ⟨"Impossible de supprimer cet utilisateur car il est associe a un ou plusieurs evenements.",
            by simp only [deleteUser, hu]; rw [if_neg h1, if_neg h2, if_pos h3]⟩
        · exfalso
          rcases hbad with ⟨hd, hcount⟩ | ⟨c, hc, hceq⟩ | ⟨e, he, heeq⟩
          · exact h1 ⟨hd, by omega⟩
          · exact h2 (List.any_eq_true.mpr ⟨c, hc, by simp [hceq]⟩)
          · exact h3 (List.any_eq_true.mpr ⟨e, he, by simp [heeq]⟩)
  · intro ⟨hna, hnc, hne⟩
    have h1 : ¬ (u.department = DepartmentType.GESTION ∧ gestionCount db ≤ 1) := by
      rintro ⟨hd, hcount⟩
      have hpos : 1 ≤ gestionCount db := gestionCount_pos_of_mem db u humem hd
      exact hna ⟨hd, by omega⟩
    have h2 : ¬ (db.clients.any (fun c => c.sales_contact_id == uid) = true) := by
      rw [List.any_eq_true]
      rintro ⟨c, hc, hbeq⟩
      exact hnc c hc (by simpa using hbeq)
    have h3 : ¬ (db.events.any (fun e => e.support_contact_id == some uid) = true) := by
      rw [List.any_eq_true]
      rintro ⟨e, he, hbeq⟩
      exact hne e he (by simpa using hbeq)
    have hrun : deleteUser db uid =
        (.ok true, { db with users := db.users.filter (fun v => v.id != uid) }) := by
      simp only [deleteUser, hu]
      rw [if_neg h1, if_neg h2, if_neg h3]
    refine ⟨hrun, ?_⟩
    rw [hrun]
    exact find?_id_filter_ne db.users (fun v => v.id) uid
  · intro hfl r db2 heq
    rcases deleteUser_users_cases db uid with hdb | ⟨hdb, w, hw, h1⟩
    · rw [heq] at hdb
      have hdb2 : db2 = db := hdb
      rw [hdb2]
      exact hfl
    · rw [heq] at hdb
      have hdb2 : db2 = { db with users := db.users.filter (fun v => v.id != uid) } := hdb
      have hwu : w = u := by
        rw [hu] at hw
        exact (Option.some.inj hw).symm
      rw [hwu] at h1
      rw [hdb2]
      by_cases hd : u.department = DepartmentType.GESTION
      · have h2 : 2 ≤ gestionCount db := by
          rcases Nat.lt_or_ge (gestionCount db) 2 with hlt | hge
          · exact absurd ⟨hd, by omega⟩ h1
          · exact hge
        have hle := countP_le_filter_add db.users uid
          (fun v => decide (v.department = DepartmentType.GESTION))
        have hone := user_countP_id_le_one db.users uid hids
        simp only [gestionCount] at h2 ⊢
        omega
      · obtain ⟨w2, hw2mem, hw2p⟩ := List.countP_pos_iff.mp
          (show 0 < db.users.countP (fun v => decide (v.department = DepartmentType.GESTION)) by
            simpa [gestionCount] using hfl)
        have hw2d : w2.department = DepartmentType.GESTION := by simpa using hw2p
        have hw2ne : w2.id ≠ uid := by
          intro hwid
          have heq2 : w2 = u :=
            user_eq_of_mem_id db.users hids w2 u hw2mem humem (by rw [hwid, huid])
          rw [heq2] at hw2d
          exact hd hw2d
        have hpos : 0 < (db.users.filter (fun v => v.id != uid)).countP
            (fun v => decide (v.department = DepartmentType.GESTION)) :=
          List.countP_pos_iff.mpr
            ⟨w2, List.mem_filter.mpr ⟨hw2mem, by simpa using hw2ne⟩, hw2p⟩
        simpa [gestionCount] using hpos

/-- C3 witness: `gwen` is the sole GESTION user of the sample state, so deleting
her fails and the state is unchanged. -/
theorem deleteUser_blocked_conditions_and_gestion_floor_witness :
    ∃ msg, deleteUser sampleDb 2 = (.error msg, sampleDb) :=
  (deleteUser_blocked_conditions_and_gestion_floor sampleDb 2 gwen rfl
      (by decide)).1 (Or.inl ⟨rfl, by decide⟩)
